import Mathlib

/-!
# Verification of the hidden-vault engine (`src-tauri/src/vault.rs`)

A shallow embedding of the vault module.  Bytes are `Nat` values (with
`< 256` bounds stated where they matter), byte buffers are `List Nat`,
Rust `String`s are Lean `String`s.  The functions below are translated
line-by-line from `vault.rs`; external crates (chacha20poly1305, serde_json,
argon2's hash core, UTF-8 decoding) are passed in as an explicit record of
functions (`Externals`) since their code is not part of this repository,
while the small pure helpers the repository relies on byte-for-byte
(base64 STANDARD, hex) are implemented concretely.

Nondeterministic inputs of the Rust code (RNG output, clock readings,
fresh UUIDs) and the outcomes of filesystem reads/writes are passed as
explicit parameters; the file operations performed by `save_manifest`
are additionally recorded as an `FsOp` trace so that claims about *how*
the container is rewritten (in place vs. temp-file + rename) are statable.
-/

/-- Argon2 cost parameters (memory KiB, iterations, lanes). -/
structure Argon2Params where
  mCost : Nat
  tCost : Nat
  pCost : Nat
deriving DecidableEq, Repr

/-- `Argon2::default()` of the `argon2` crate: `Params::DEFAULT`
(m_cost = 19456 KiB, t_cost = 2, p_cost = 1). -/
def argon2DefaultParams : Argon2Params := ⟨19456, 2, 1⟩

/-- Vault container header (plaintext metadata) — `VaultHeader` in vault.rs. -/
structure VaultHeader where
  version : Nat
  created_at : String
  salt : String
  argon2_params : String
  vault_id : String
deriving DecidableEq, Repr

/-- Vault entry metadata — `VaultEntry` in vault.rs.
`encrypted_data` is the base64 string of `nonce(12) ++ ciphertext`. -/
structure VaultEntry where
  id : String
  filename : String
  original_path : String
  file_size : Nat
  mime_type : Option String
  imported_at : String
  nonce : String
  tags : List String
  encrypted_data : String
deriving DecidableEq, Repr

/-- Tamper-detection audit record — `AuditLog` in vault.rs. -/
structure AuditLog where
  timestamp : String
  action : String
  entry_id : Option String
  status : String
deriving DecidableEq, Repr

/-- Vault manifest — `VaultManifest` in vault.rs.  The Rust
`HashMap<String, VaultEntry>` is modelled as an association list with
unique keys; `HashMap::insert` / `remove` / `get` become `mapInsert` /
`mapRemove` / `mapGet` below. -/
structure VaultManifest where
  entries : List (String × VaultEntry)
  last_accessed : String
  access_log : List AuditLog
deriving DecidableEq, Repr

/-- In-memory unlocked session — `VaultSession` in vault.rs.
`last_accessed : Nat` models the `DateTime<Utc>` instant as a tick count. -/
structure VaultSession where
  vault_id : String
  vault_path : String
  cipher_key : List Nat
  manifest : VaultManifest
  locked : Bool
  last_accessed : Nat
deriving DecidableEq, Repr

/-- Functions supplied by external crates (not code of this repository):
the ChaCha20-Poly1305 core (`enc` is `cipher.encrypt`, producing
`ciphertext ++ tag`; `dec` is `cipher.decrypt`, `none` on tag failure),
serde_json serialization of the manifest and header, JSON parsing, and
UTF-8 decoding.  `argonHash` is the argon2 crate's `hash_password_into`
under explicit cost parameters.  Arguments of `enc`/`dec`: key, nonce,
payload. -/
structure Externals where
  enc : List Nat → List Nat → List Nat → List Nat
  dec : List Nat → List Nat → List Nat → Option (List Nat)
  serManifest : VaultManifest → List Nat
  parseManifest : List Nat → Option VaultManifest
  decodeUtf8 : List Nat → Option String
  parseHeader : String → Option VaultHeader
  serHeaderBytes : VaultHeader → List Nat
  argonHash : Argon2Params → List Nat → List Nat → List Nat

/-- `MAX_VAULT_SIZE` in vault.rs: 10 GiB. -/
def MAX_VAULT_SIZE : Nat := 10 * 1024 * 1024 * 1024

/-- The boundary sentinel bytes `b"\n---VAULT_BOUNDARY---\n"`. -/
def BOUNDARY : List Nat := "\n---VAULT_BOUNDARY---\n".toList.map Char.toNat

/-- One filesystem side effect performed by `save_manifest`. -/
inductive FsOp where
  | openRead (path : String)
  | createTruncate (path : String)
  | writeAll (path : String) (bytes : List Nat)
  | rename (src : String) (dst : String)
deriving DecidableEq, Repr

/-- Whether an `FsOp` is a rename. -/
def FsOp.isRename : FsOp → Bool
  | .rename _ _ => true
  | _ => false

/- ===== association-list model of `HashMap<String, VaultEntry>` ===== -/

/-- `HashMap::insert` (replaces the value when the key is present). -/
def mapInsert (k : String) (v : VaultEntry) : List (String × VaultEntry) → List (String × VaultEntry)
  | [] => [(k, v)]
  | (k', v') :: t => if k' = k then (k, v) :: t else (k', v') :: mapInsert k v t

/-- `HashMap::get`. -/
def mapGet (k : String) : List (String × VaultEntry) → Option VaultEntry
  | [] => none
  | (k', v) :: t => if k' = k then some v else mapGet k t

/-- `HashMap::remove`, returning the shrunk map (`none` when the key is absent,
matching the `.ok_or("Entry not found")?` use in `delete_entry`). -/
def mapRemove (k : String) : List (String × VaultEntry) → Option (List (String × VaultEntry))
  | [] => none
  | (k', v) :: t => if k' = k then some t else (mapRemove k t).map (fun t' => (k', v) :: t')

/-- `entries.values()`. -/
def mapValues (m : List (String × VaultEntry)) : List VaultEntry := m.map (fun p => p.2)

/-- `entries.values().map(|e| e.file_size).sum()`. -/
def sumSizes (m : List (String × VaultEntry)) : Nat := (m.map (fun p => p.2.file_size)).sum

/- ===== hex (the `hex` crate, used for salts and nonces) ===== -/

/-- Value of one hex digit. -/
def hexVal (c : Char) : Option Nat :=
  if '0' ≤ c ∧ c ≤ '9' then some (c.toNat - '0'.toNat)
  else if 'a' ≤ c ∧ c ≤ 'f' then some (c.toNat - 'a'.toNat + 10)
  else if 'A' ≤ c ∧ c ≤ 'F' then some (c.toNat - 'A'.toNat + 10)
  else none

/-- `hex::decode`: fails on odd length or a non-hex character. -/
def hexDecode : List Char → Option (List Nat)
  | [] => some []
  | [_] => none
  | c1 :: c2 :: rest =>
    match hexVal c1, hexVal c2, hexDecode rest with
    | some h1, some h2, some t => some ((h1 * 16 + h2) :: t)
    | _, _, _ => none

/-- Lower-case hex digit for a value below 16. -/
def hexDigitChar (n : Nat) : Char := "0123456789abcdef".toList.getD n '0'

/-- `hex::encode` (arguments are bytes, i.e. below 256). -/
def hexEncode (l : List Nat) : String :=
  String.mk ((l.map (fun b => [hexDigitChar (b / 16 % 16), hexDigitChar (b % 16)])).flatten)

/- ===== base64 STANDARD with padding (`general_purpose::STANDARD`) ===== -/

/-- The base64 STANDARD alphabet. -/
def b64Alphabet : List Char :=
  "ABCDEFGHIJKLMNOPQRSTUVWXYZabcdefghijklmnopqrstuvwxyz0123456789+/".toList

/-- Character for a sextet value. -/
def sextetChar (n : Nat) : Char := b64Alphabet.getD n 'A'

/-- Index scan used by `charSextet`. -/
def charSextetAux : List Char → Nat → Char → Option Nat
  | [], _, _ => none
  | a :: t, i, c => if a = c then some i else charSextetAux t (i + 1) c

/-- Sextet value of an alphabet character (`none` for a non-alphabet one). -/
def charSextet (c : Char) : Option Nat := charSextetAux b64Alphabet 0 c

/-- base64 STANDARD encoding with `=` padding. -/
def b64encode : List Nat → List Char
  | [] => []
  | [a] => [sextetChar (a / 4 % 64), sextetChar (a % 4 * 16), '=', '=']
  | [a, b] =>
    [sextetChar (a / 4 % 64), sextetChar (a % 4 * 16 + b / 16),
     sextetChar (b % 16 * 4), '=']
  | a :: b :: c :: rest =>
    sextetChar (a / 4 % 64) :: sextetChar (a % 4 * 16 + b / 16) ::
    sextetChar (b % 16 * 4 + c / 64) :: sextetChar (c % 64) :: b64encode rest

/-- base64 STANDARD decoding: canonical padding required, non-zero trailing
bits rejected (the crate's STANDARD engine defaults). -/
def b64decode : List Char → Option (List Nat)
  | [] => some []
  | c1 :: c2 :: c3 :: c4 :: rest =>
    match charSextet c1, charSextet c2 with
    | some s1, some s2 =>
      if c3 = '=' then
        if c4 = '=' then
          if rest = [] then
            if s2 % 16 = 0 then some [s1 * 4 + s2 / 16] else none
          else none
        else none
      else
        match charSextet c3 with
        | none => none
        | some s3 =>
          if c4 = '=' then
            if rest = [] then
              if s3 % 4 = 0 then some [s1 * 4 + s2 / 16, s2 % 16 * 16 + s3 / 4]
              else none
            else none
          else
            match charSextet c4 with
            | none => none
            | some s4 =>
              (b64decode rest).map
                (fun t => (s1 * 4 + s2 / 16) :: (s2 % 16 * 16 + s3 / 4) ::
                          (s3 % 4 * 64 + s4) :: t)
    | _, _ => none
  | _ => none

/- ===== boundary scan (`contents.windows(len).position(|w| w == boundary)`) ===== -/

/-- Scan for the first index at which `BOUNDARY` occurs, starting the
index count at `i`. -/
def findBoundaryFrom (l : List Nat) (i : Nat) : Option Nat :=
  if BOUNDARY.isPrefixOf l then some i
  else
    match l with
    | [] => none
    | _ :: t => findBoundaryFrom t (i + 1)

/-- Position of the first occurrence of the boundary sentinel. -/
def findBoundary (l : List Nat) : Option Nat := findBoundaryFrom l 0

/- ===== the vault functions (each translated from the named Rust item) ===== -/

/-- `Vault::derive_key`.  The Rust signature binds the parameter string as
`_argon2_params` and never reads it: the hash always runs under
`Argon2::default()` (`argon2DefaultParams`).  The hex salt decode failure
is the only error path. -/
def derive_key (lib : Externals) (password : List Nat) (salt : String)
    (_argon2_params : String) : Except String (List Nat) :=
  match hexDecode salt.toList with
  | none => .error "Failed to decode salt"
  | some salt_bytes => .ok (lib.argonHash argon2DefaultParams password salt_bytes)

/-- `Vault::encrypt_data` specialised to the manifest (the only type it is
used at): serde_json-serialize, then seal under a fresh 12-byte nonce,
returning `nonce ++ ciphertext`.  `ChaCha20Poly1305::new_from_slice` fails
exactly when the key is not 32 bytes. -/
def encrypt_data (lib : Externals) (m : VaultManifest) (key : List Nat)
    (nonce_bytes : List Nat) : Except String (List Nat) :=
  if key.length = 32 then .ok (nonce_bytes ++ lib.enc key nonce_bytes (lib.serManifest m))
  else .error "Invalid cipher key"

/-- `Vault::decrypt_json` (for the manifest): length check, split the
12-byte nonce, build the cipher, decrypt, deserialize. -/
def decrypt_json (lib : Externals) (data : List Nat) (key : List Nat) :
    Except String VaultManifest :=
  if data.length < 12 then .error "Encrypted data too short"
  else if key.length = 32 then
    match lib.dec key (data.take 12) (data.drop 12) with
    | none => .error "Decryption failed"
    | some plaintext =>
      match lib.parseManifest plaintext with
      | none => .error "Deserialization failed"
      | some m => .ok m
  else .error "Invalid cipher key"

/-- `Vault::encrypt_bytes_with_nonce`: seal raw bytes under a caller-provided
12-byte nonce, returning `nonce ++ ciphertext`. -/
def encrypt_bytes_with_nonce (lib : Externals) (data : List Nat) (key : List Nat)
    (nonce_bytes : List Nat) : Except String (List Nat) :=
  if key.length = 32 then .ok (nonce_bytes ++ lib.enc key nonce_bytes data)
  else .error "Invalid cipher key"

/-- `Vault::decrypt_bytes`: length check, split the 12-byte nonce, decrypt. -/
def decrypt_bytes (lib : Externals) (data : List Nat) (key : List Nat) :
    Except String (List Nat) :=
  if data.length < 12 then .error "Encrypted data too short"
  else if key.length = 32 then
    match lib.dec key (data.take 12) (data.drop 12) with
    | none => .error "Decryption failed"
    | some plaintext => .ok plaintext
  else .error "Invalid cipher key"

/-- `Vault::verify_tamper` — a stub in the source: returns `Ok(())` on both
branches of its emptiness test. -/
def verify_tamper (m : VaultManifest) (_key : List Nat) : Except String Unit :=
  if m.entries.isEmpty then .ok () else .ok ()

/-- `Vault::guess_mime_type`, taking the already-extracted extension
(`Path::extension().and_then(to_str)` is platform logic outside the model). -/
def guess_mime_type (extension : Option String) : Option String :=
  extension.map (fun e =>
    match e.toLower with
    | "pdf" => "application/pdf"
    | "jpg" => "image/jpeg"
    | "jpeg" => "image/jpeg"
    | "png" => "image/png"
    | "txt" => "text/plain"
    | _ => "application/octet-stream")

/-- `Vault::save_manifest`.  Parameters: the session, the current bytes of
the container file (the read at the top of the function), and the fresh
manifest nonce drawn inside `encrypt_data`.  On success returns the trace
of file operations performed and the new container bytes.  Note the source
re-serializes the manifest into `manifest_json` and never uses it; the
unused binding is reproduced here. -/
def save_manifest (lib : Externals) (s : VaultSession) (contents : List Nat)
    (nonce_bytes : List Nat) : Except String (List FsOp × List Nat) :=
  match findBoundary contents with
  | none => .error "Invalid vault format: boundary not found"
  | some boundary_pos =>
    let _manifest_json := lib.serManifest s.manifest
    match encrypt_data lib s.manifest s.cipher_key nonce_bytes with
    | .error e => .error e
    | .ok encrypted_manifest =>
      let header_and_boundary := contents.take (boundary_pos + BOUNDARY.length)
      .ok ([FsOp.openRead s.vault_path,
            FsOp.createTruncate s.vault_path,
            FsOp.writeAll s.vault_path header_and_boundary,
            FsOp.writeAll s.vault_path encrypted_manifest],
           header_and_boundary ++ encrypted_manifest)

/-- `Vault::open_vault`.  Parameters: the path, the bytes read from the
container file, the password bytes, and the clock reading for
`last_accessed`.  (The existence check and the read itself are filesystem
outcomes outside the model; `contents` is the successful read.)  The final
`cipher_key.zeroize()` on the local copy after cloning it into the session
has no observable effect in a pure model. -/
def open_vault (lib : Externals) (vault_path : String) (contents : List Nat)
    (password : List Nat) (now : Nat) : Except String VaultSession :=
  match findBoundary contents with
  | none => .error "Invalid vault format: boundary not found"
  | some boundary_pos =>
    let header_bytes := contents.take boundary_pos
    match lib.decodeUtf8 header_bytes with
    | none => .error "Invalid header encoding"
    | some header_str =>
      match lib.parseHeader header_str with
      | none => .error "Failed to parse header"
      | some header =>
        let encrypted_manifest := contents.drop (boundary_pos + BOUNDARY.length)
        match derive_key lib password header.salt header.argon2_params with
        | .error e => .error e
        | .ok cipher_key =>
          match decrypt_json lib encrypted_manifest cipher_key with
          | .error e => .error e
          | .ok manifest =>
            match verify_tamper manifest cipher_key with
            | .error e => .error e
            | .ok _ =>
              .ok { vault_id := header.vault_id, vault_path := vault_path,
                    cipher_key := cipher_key, manifest := manifest,
                    locked := false, last_accessed := now }

/-- `Vault::lock_session`: set `locked`, zeroize the key buffer (the
`zeroize` crate overwrites the vector's bytes with zeros; modelled as an
all-zero buffer of the same length).  The Rust function returns `Ok(())`
unconditionally. -/
def lock_session (s : VaultSession) : VaultSession :=
  { s with locked := true, cipher_key := List.replicate s.cipher_key.length 0 }

/-- `Vault::list_entries`. -/
def list_entries (s : VaultSession) : Except String (List VaultEntry) :=
  if s.locked then .error "Vault is locked"
  else .ok (mapValues s.manifest.entries)

/-- `Vault::import_file`.  The session is passed by `&mut` in Rust, so the
model returns the final session and the final container-file bytes next to
the `Result`.  Parameters beyond the Rust ones supply outcomes of effects:
`readResult` — the source-file read; `sourceName` / `sourcePathStr` /
`sourceExtension` — the path components used; `entry_id` — the fresh UUID;
`nonce_bytes` — the fresh 12-byte payload nonce; `nowStr` / `now` — clock
readings; `vaultFile` — current container bytes; `manifestNonce` — the
nonce drawn when sealing the manifest in `save_manifest`. -/
def import_file (lib : Externals) (s : VaultSession)
    (readResult : Except String (List Nat))
    (sourceName sourcePathStr : String) (sourceExtension : Option String)
    (tags : List String) (entry_id : String) (nonce_bytes : List Nat)
    (nowStr : String) (now : Nat) (vaultFile : List Nat)
    (manifestNonce : List Nat) : VaultSession × List Nat × Except String String :=
  if s.locked then (s, vaultFile, .error "Vault is locked")
  else
    match readResult with
    | .error e => (s, vaultFile, .error e)
    | .ok file_data =>
      let file_size := file_data.length
      let current_size := sumSizes s.manifest.entries
      if current_size + file_size > MAX_VAULT_SIZE then
        (s, vaultFile, .error "Vault size limit exceeded")
      else
        let nonce := hexEncode nonce_bytes
        match encrypt_bytes_with_nonce lib file_data s.cipher_key nonce_bytes with
        | .error e => (s, vaultFile, .error e)
        | .ok encrypted_with_nonce =>
          let encrypted_data_b64 := String.mk (b64encode encrypted_with_nonce)
          let entry : VaultEntry :=
            { id := entry_id, filename := sourceName,
              original_path := sourcePathStr, file_size := file_size,
              mime_type := guess_mime_type sourceExtension,
              imported_at := nowStr, nonce := nonce, tags := tags,
              encrypted_data := encrypted_data_b64 }
          let s1 := { s with manifest :=
            { s.manifest with entries := mapInsert entry_id entry s.manifest.entries } }
          let s2 := { s1 with manifest :=
            { s1.manifest with access_log := s1.manifest.access_log ++
              [(⟨nowStr, "import", some entry_id, "success"⟩ : AuditLog)] } }
          let s3 := { s2 with last_accessed := now }
          match save_manifest lib s3 vaultFile manifestNonce with
          | .error e => (s3, vaultFile, .error e)
          | .ok (_, newFile) => (s3, newFile, .ok entry_id)

/-- `Vault::export_file`.  `outWrite` is the outcome of creating and writing
the destination file; on success the `Result` carries the plaintext bytes
written to `output_path` (the Rust function returns `Ok(())` after
`write_all(&file_data)`). -/
def export_file (lib : Externals) (s : VaultSession) (entry_id : String)
    (outWrite : Except String Unit) (nowStr : String) (now : Nat)
    (vaultFile : List Nat) (manifestNonce : List Nat) :
    VaultSession × List Nat × Except String (List Nat) :=
  if s.locked then (s, vaultFile, .error "Vault is locked")
  else
    match mapGet entry_id s.manifest.entries with
    | none => (s, vaultFile, .error "Entry not found")
    | some entry =>
      if entry.encrypted_data = "" then
        (s, vaultFile, .error "This file was imported before encrypted data storage was implemented. Please re-import the file to enable extraction.")
      else
        match b64decode entry.encrypted_data.toList with
        | none => (s, vaultFile, .error "Failed to decode encrypted data")
        | some encrypted_data =>
          match decrypt_bytes lib encrypted_data s.cipher_key with
          | .error e => (s, vaultFile, .error e)
          | .ok file_data =>
            match outWrite with
            | .error e => (s, vaultFile, .error e)
            | .ok _ =>
              let s1 := { s with manifest :=
                { s.manifest with access_log := s.manifest.access_log ++
                  [(⟨nowStr, "export", some entry_id, "success"⟩ : AuditLog)] } }
              let s2 := { s1 with last_accessed := now }
              match save_manifest lib s2 vaultFile manifestNonce with
              | .error e => (s2, vaultFile, .error e)
              | .ok (_, newFile) => (s2, newFile, .ok file_data)

/-- `Vault::delete_entry`. -/
def delete_entry (lib : Externals) (s : VaultSession) (entry_id : String)
    (nowStr : String) (now : Nat) (vaultFile : List Nat)
    (manifestNonce : List Nat) : VaultSession × List Nat × Except String Unit :=
  if s.locked then (s, vaultFile, .error "Vault is locked")
  else
    match mapRemove entry_id s.manifest.entries with
    | none => (s, vaultFile, .error "Entry not found")
    | some entries' =>
      let s1 := { s with manifest := { s.manifest with entries := entries' } }
      let s2 := { s1 with manifest :=
        { s1.manifest with access_log := s1.manifest.access_log ++
          [(⟨nowStr, "delete", some entry_id, "success"⟩ : AuditLog)] } }
      let s3 := { s2 with last_accessed := now }
      match save_manifest lib s3 vaultFile manifestNonce with
      | .error e => (s3, vaultFile, .error e)
      | .ok (_, newFile) => (s3, newFile, .ok ())

/-- The 26-word list of `Vault::generate_recovery_codes`. -/
def recoveryWords : List String :=
  ["alpha", "bravo", "charlie", "delta", "echo", "foxtrot", "golf", "hotel",
   "india", "julia", "kilo", "lima", "mike", "november", "oscar", "papa",
   "quebec", "romeo", "sierra", "tango", "uniform", "victor", "whiskey",
   "xray", "yankee", "zulu"]

/-- Rust's `Vec::join(sep)`. -/
def joinSep (sep : String) : List String → String
  | [] => ""
  | [x] => x
  | x :: xs => x ++ sep ++ joinSep sep xs

/-- `Vault::generate_recovery_codes`.  `r k` is the `k`-th output of
`rng.gen_range(0..words.len())` (a value below 26 by contract of
`gen_range`); calls are numbered in evaluation order. -/
def generate_recovery_codes (r : Nat → Fin 26) : List String :=
  (List.range 4).map (fun i =>
    joinSep "-" ((List.range 3).map (fun j =>
      recoveryWords.getD (r (3 * i + j)).val "")))

/-- `Vault::create_vault`.  Parameters supply effect outcomes: `pathExists`
— the existence check; `vault_id` — the fresh UUID; `salt_bytes` — the 16
random salt bytes; `nowStr` — the clock; `manifestNonce` — the nonce drawn
when sealing the empty manifest; `r` — the RNG stream for the recovery
codes.  On success returns `(vault_id, recovery_codes)` plus the container
bytes written. -/
def create_vault (lib : Externals) (pathExists : Bool) (vault_id : String)
    (salt_bytes : List Nat) (nowStr : String) (password : List Nat)
    (manifestNonce : List Nat) (r : Nat → Fin 26) :
    Except String (String × List String × List Nat) :=
  if pathExists then .error "Vault already exists at this path"
  else
    let salt := hexEncode salt_bytes
    let header : VaultHeader :=
      { version := 1, created_at := nowStr, salt := salt,
        argon2_params := "m=65536,t=4,p=4", vault_id := vault_id }
    let manifest : VaultManifest :=
      { entries := [], last_accessed := nowStr,
        access_log := [⟨nowStr, "vault_created", none, "success"⟩] }
    match derive_key lib password header.salt header.argon2_params with
    | .error e => .error e
    | .ok cipher_key =>
      match encrypt_data lib manifest cipher_key manifestNonce with
      | .error e => .error e
      | .ok encrypted_manifest =>
        let fileBytes := lib.serHeaderBytes header ++ BOUNDARY ++ encrypted_manifest
        let recovery_codes := generate_recovery_codes r
        .ok (vault_id, recovery_codes, fileBytes)

/- ===== concrete instances used to evaluate the model ===== -/

/-- Build an `Externals` record from an argon2 hash core, with a transparent
cipher (encryption is the identity, decryption always authenticates) and
trivial serializers — enough to evaluate the vault functions on concrete
inputs. -/
def mkExternals (ah : Argon2Params → List Nat → List Nat → List Nat) : Externals :=
  { enc := fun _ _ p => p, dec := fun _ _ c => some c,
    serManifest := fun _ => [], parseManifest := fun _ => none,
    decodeUtf8 := fun _ => some "", parseHeader := fun _ => none,
    serHeaderBytes := fun _ => [],
    argonHash := ah }

/-- Concrete externals whose argon2 core returns a fixed 32-byte key. -/
def mocks : Externals := mkExternals (fun _ _ _ => List.replicate 32 0)

/-- Concrete externals whose UTF-8 decoder rejects every input, standing in
for a header region that is not valid UTF-8. -/
def utf8Rejecting : Externals := { mocks with decodeUtf8 := fun _ => none }

/-- Concrete externals whose argon2 core reveals the cost parameters it was
invoked with, making the parameters actually used for derivation observable
in the derived key. -/
def paramsRevealing : Externals :=
  mkExternals (fun p _ _ => [p.mCost, p.tCost, p.pCost])

/-- A concrete unlocked session with an empty manifest and a 32-byte key. -/
def wSession : VaultSession :=
  { vault_id := "vault-1", vault_path := "vault.vlt",
    cipher_key := List.replicate 32 0,
    manifest := { entries := [], last_accessed := "t0", access_log := [] },
    locked := false, last_accessed := 0 }

/-- A concrete entry whose `encrypted_data` is the base64 of 12 zero bytes
(an empty payload sealed under a zero nonce by the transparent cipher). -/
def wEntry : VaultEntry :=
  { id := "e1", filename := "f.bin", original_path := "/f.bin",
    file_size := 0, mime_type := none, imported_at := "t0",
    nonce := "000000000000000000000000", tags := [],
    encrypted_data := "AAAAAAAAAAAAAAAA" }

/-- `wSession` with `wEntry` present. -/
def wSessionWithEntry : VaultSession :=
  { wSession with manifest := { wSession.manifest with entries := [("e1", wEntry)] } }

/-- An entry already occupying the whole 10 GiB budget. -/
def wBigEntry : VaultEntry := { wEntry with id := "big", file_size := MAX_VAULT_SIZE }

/-- `wSession` holding `wBigEntry`. -/
def wSessionBig : VaultSession :=
  { wSession with manifest := { wSession.manifest with entries := [("big", wBigEntry)] } }

/-- A 12-byte all-zero nonce. -/
def wNonce : List Nat := List.replicate 12 0

/-- Result of a concrete successful import into `wSession`. -/
def wImportRes : VaultSession × List Nat × Except String String :=
  import_file mocks wSession (Except.ok [1, 2, 3]) "f" "/f" none [] "e1" wNonce
    "t1" 1 BOUNDARY wNonce

/-- Result of a concrete successful export from `wSessionWithEntry`. -/
def wExportRes : VaultSession × List Nat × Except String (List Nat) :=
  export_file mocks wSessionWithEntry "e1" (Except.ok ()) "t2" 2 BOUNDARY wNonce

/-- Result of a concrete successful delete from `wSessionWithEntry`. -/
def wDeleteRes : VaultSession × List Nat × Except String Unit :=
  delete_entry mocks wSessionWithEntry "e1" "t3" 3 BOUNDARY wNonce

/-- The trace of a concrete `save_manifest` call on `wSession`. -/
def wTrace : List FsOp :=
  [FsOp.openRead "vault.vlt", FsOp.createTruncate "vault.vlt",
   FsOp.writeAll "vault.vlt" ([72] ++ BOUNDARY),
   FsOp.writeAll "vault.vlt" wNonce]

/-- The container bytes written by that concrete `save_manifest` call. -/
def wNewC : List Nat := ([72] ++ BOUNDARY) ++ wNonce

/-- A fixed RNG stream for the recovery-code generator. -/
def wRng : Nat → Fin 26 := fun _ => ⟨0, by omega⟩

/- ===== helper lemmas ===== -/

/-- Decoding inverts the sextet table. -/
theorem charSextet_sextetChar_fin : ∀ n : Fin 64, charSextet (sextetChar n.val) = some n.val := by
  decide

/-- Decoding inverts the sextet table (Nat form). -/
theorem charSextet_sextetChar (n : Nat) (h : n < 64) :
    charSextet (sextetChar n) = some n :=
  charSextet_sextetChar_fin ⟨n, h⟩

/-- No sextet character is the padding character. -/
theorem sextetChar_ne_pad_fin : ∀ n : Fin 64, sextetChar n.val ≠ '=' := by
  decide

/-- No sextet character is the padding character (Nat form). -/
theorem sextetChar_ne_pad (n : Nat) (h : n < 64) : sextetChar n ≠ '=' :=
  sextetChar_ne_pad_fin ⟨n, h⟩

/-- base64 decode inverts base64 encode on byte lists. -/
theorem b64_roundtrip : ∀ l : List Nat, (∀ x ∈ l, x < 256) →
    b64decode (b64encode l) = some l
  | [] => fun _ => rfl
  | [a] => by
    intro h
    have ha : a < 256 := h a (by simp)
    have e1 := charSextet_sextetChar (a / 4 % 64) (by omega)
    have e2 := charSextet_sextetChar (a % 4 * 16) (by omega)
    simp only [b64encode, b64decode, e1, e2, if_pos rfl]
    have h0 : a % 4 * 16 % 16 = 0 := by omega
    simp only [h0, if_pos rfl, reduceIte]
    simp only [Option.some_inj, List.cons.injEq, and_true]
    omega
  | [a, b] => by
    intro h
    have ha : a < 256 := h a (by simp)
    have hb : b < 256 := h b (by simp)
    have e1 := charSextet_sextetChar (a / 4 % 64) (by omega)
    have e2 := charSextet_sextetChar (a % 4 * 16 + b / 16) (by omega)
    have e3 := charSextet_sextetChar (b % 16 * 4) (by omega)
    have ne3 := sextetChar_ne_pad (b % 16 * 4) (by omega)
    simp only [b64encode, b64decode, e1, e2, e3, if_neg ne3, if_pos rfl]
    have h0 : b % 16 * 4 % 4 = 0 := by omega
    simp only [h0, if_pos rfl, reduceIte]
    simp only [Option.some_inj, List.cons.injEq, and_true]
    exact ⟨by omega, by omega⟩
  | a :: b :: c :: rest => by
    intro h
    have ha : a < 256 := h a (by simp)
    have hb : b < 256 := h b (by simp)
    have hc : c < 256 := h c (by simp)
    have ih := b64_roundtrip rest (fun x hx => h x (by simp [hx]))
    have e1 := charSextet_sextetChar (a / 4 % 64) (by omega)
    have e2 := charSextet_sextetChar (a % 4 * 16 + b / 16) (by omega)
    have e3 := charSextet_sextetChar (b % 16 * 4 + c / 64) (by omega)
    have e4 := charSextet_sextetChar (c % 64) (by omega)
    have ne3 := sextetChar_ne_pad (b % 16 * 4 + c / 64) (by omega)
    have ne4 := sextetChar_ne_pad (c % 64) (by omega)
    simp only [b64encode, b64decode, e1, e2, e3, e4, if_neg ne3, if_neg ne4, ih,
      Option.map_some', Option.some_inj, List.cons.injEq, and_true]
    omega

/-- The encoding of a byte list is empty exactly when the list is. -/
theorem b64encode_eq_nil : ∀ l : List Nat, b64encode l = [] ↔ l = []
  | [] => ⟨fun _ => rfl, fun _ => rfl⟩
  | [_] => by simp [b64encode]
  | [_, _] => by simp [b64encode]
  | _ :: _ :: _ :: _ => by simp [b64encode]

/-- Lookup after insert at the same key. -/
theorem mapGet_mapInsert_self (k : String) (v : VaultEntry) :
    ∀ m : List (String × VaultEntry), mapGet k (mapInsert k v m) = some v
  | [] => by simp [mapInsert, mapGet]
  | (k', v') :: t => by
    by_cases hk : k' = k
    · simp [mapInsert, mapGet, hk]
    · simp [mapInsert, mapGet, hk, mapGet_mapInsert_self k v t]

/-- A successful boundary scan decomposes the buffer. -/
theorem findBoundaryFrom_some : ∀ (l : List Nat) (i p : Nat),
    findBoundaryFrom l i = some p →
    ∃ pre post, l = pre ++ BOUNDARY ++ post ∧ pre.length + i = p
  | l, i, p => by
    intro hfind
    rw [findBoundaryFrom.eq_def] at hfind
    by_cases hpre : BOUNDARY.isPrefixOf l
    · rw [if_pos hpre] at hfind
      obtain ⟨post, hpost⟩ := List.isPrefixOf_iff_prefix.mp hpre
      exact ⟨[], post, by simpa using hpost.symm, by simpa using Option.some_inj.mp hfind⟩
    · rw [if_neg hpre] at hfind
      match l, hfind with
      | a :: t, hfind =>
        obtain ⟨pre, post, hsplit, hlen⟩ := findBoundaryFrom_some t (i + 1) p hfind
        exact ⟨a :: pre, post, by simp [hsplit], by simp; omega⟩

/-- A buffer that contains the boundary is found by the scan. -/
theorem findBoundaryFrom_isSome : ∀ (pre post : List Nat) (i : Nat),
    ∃ p, findBoundaryFrom (pre ++ BOUNDARY ++ post) i = some p
  | [], post, i => by
    refine ⟨i, ?_⟩
    rw [findBoundaryFrom.eq_def, if_pos ?_]
    exact List.isPrefixOf_iff_prefix.mpr ⟨post, by simp⟩
  | a :: pre, post, i => by
    rw [findBoundaryFrom.eq_def]
    by_cases hpre : BOUNDARY.isPrefixOf (a :: pre ++ BOUNDARY ++ post)
    · exact ⟨i, by rw [if_pos hpre]⟩
    · obtain ⟨p, hp⟩ := findBoundaryFrom_isSome pre post (i + 1)
      exact ⟨p, by rw [if_neg hpre]; simpa using hp⟩

/-- The boundary sentinel is 22 bytes long. -/
theorem boundary_length : BOUNDARY.length = 22 := by decide

/-- What `contents.take (pos + BOUNDARY.length)` is at a found position:
the prefix up to and including the sentinel. -/
theorem take_at_boundary (pre post : List Nat) :
    (pre ++ BOUNDARY ++ post).take (pre.length + BOUNDARY.length) =
    pre ++ BOUNDARY := by
  rw [List.append_assoc, List.take_append, List.take_left]

/- ===== claims ===== -/

/-- C1 (counterexample to the claim as stated): instrumenting the argon2
core so the key records the cost parameters it was invoked with, the two
distinct header params strings `"m=65536,t=4,p=4"` and `"m=1,t=1,p=1"`
derive the *same* key, and that key records the crate's hard-coded default
costs (19456, 2, 1) — not the respective parsed parameters. -/
theorem vault_c1_counterexample :
    derive_key paramsRevealing [1] "00" "m=65536,t=4,p=4" = .ok [19456, 2, 1] ∧
    derive_key paramsRevealing [1] "00" "m=1,t=1,p=1" = .ok [19456, 2, 1] :=
  ⟨rfl, rfl⟩

/-- C1 (amended): `derive_key` ignores the params string entirely — any two
params strings give identical results — and every successfully derived key
is the argon2 hash of the password and decoded salt under the crate's
default parameters `argon2DefaultParams`, regardless of the string. -/
theorem vault_c1_params_ignored :
    (∀ (lib : Externals) (pw : List Nat) (salt p1 p2 : String),
       derive_key lib pw salt p1 = derive_key lib pw salt p2) ∧
    (∀ (lib : Externals) (pw : List Nat) (salt params : String) (k : List Nat),
       derive_key lib pw salt params = .ok k →
       ∃ sb, hexDecode salt.toList = some sb ∧
         k = lib.argonHash argon2DefaultParams pw sb) := by
  refine ⟨fun lib pw salt p1 p2 => rfl, fun lib pw salt params k h => ?_⟩
  unfold derive_key at h
  cases hd : hexDecode salt.toList with
  | none => rw [hd] at h; exact absurd h (by simp)
  | some sb =>
    rw [hd] at h
    exact ⟨sb, rfl, (Option.some_inj.mp (by simpa using h)).symm⟩

/-- C1 witness: both parts of the amended theorem at concrete inputs. -/
theorem vault_c1_witness :
    derive_key mocks [1] "00" "a" = derive_key mocks [1] "00" "b" ∧
    (∃ sb, hexDecode "00".toList = some sb ∧
       List.replicate 32 0 = mocks.argonHash argon2DefaultParams [1] sb) :=
  ⟨vault_c1_params_ignored.1 mocks [1] "00" "a" "b",
   vault_c1_params_ignored.2 mocks [1] "00" "x" (List.replicate 32 0) rfl⟩

/-- C3: on an unlocked session, importing a file whose size pushes the sum
of entry sizes past `MAX_VAULT_SIZE` fails with the size-limit error and
returns the session and the container file completely unchanged (no entry,
no audit record, `last_accessed` untouched, nothing persisted). -/
theorem vault_c3_size_limit_rejects (lib : Externals) (s : VaultSession)
    (data : List Nat) (nm pth : String) (mext : Option String)
    (tags : List String) (eid : String) (nb : List Nat) (ts : String)
    (now : Nat) (vf mn : List Nat)
    (hUnlocked : s.locked = false)
    (hOver : sumSizes s.manifest.entries + data.length > MAX_VAULT_SIZE) :
    import_file lib s (.ok data) nm pth mext tags eid nb ts now vf mn
      = (s, vf, .error "Vault size limit exceeded") := by
  simp [import_file, hUnlocked, hOver]

/-- C3 witness: a vault already holding a 10 GiB entry rejects a one-byte
file and is left unchanged. -/
theorem vault_c3_witness :
    import_file mocks wSessionBig (.ok [0]) "f" "/f" none [] "e2" wNonce
        "t1" 1 BOUNDARY wNonce
      = (wSessionBig, BOUNDARY, .error "Vault size limit exceeded") :=
  vault_c3_size_limit_rejects mocks wSessionBig [0] "f" "/f" none [] "e2"
    wNonce "t1" 1 BOUNDARY wNonce rfl (by decide)

/-- C5: `lock_session` zeroizes every byte of the cipher key; it is
idempotent (locking an already-locked session is a no-op); and on a locked
session `list_entries`, `import_file`, `export_file` and `delete_entry`
all return the vault-locked error with the session (in particular the
manifest) and the container file unchanged. -/
theorem vault_c5_lock_zeroizes_and_rejects :
    ∀ (s : VaultSession) (lib : Externals) (rr : Except String (List Nat))
      (nm pth : String) (mext : Option String) (tags : List String)
      (eid : String) (nb : List Nat) (ts : String) (now : Nat)
      (vf mn : List Nat) (ow : Except String Unit),
    (∀ b ∈ (lock_session s).cipher_key, b = 0) ∧
    lock_session (lock_session s) = lock_session s ∧
    list_entries (lock_session s) = .error "Vault is locked" ∧
    import_file lib (lock_session s) rr nm pth mext tags eid nb ts now vf mn
      = (lock_session s, vf, .error "Vault is locked") ∧
    export_file lib (lock_session s) eid ow ts now vf mn
      = (lock_session s, vf, .error "Vault is locked") ∧
    delete_entry lib (lock_session s) eid ts now vf mn
      = (lock_session s, vf, .error "Vault is locked") := by
  intro s lib rr nm pth mext tags eid nb ts now vf mn ow
  refine ⟨fun b hb => List.eq_of_mem_replicate hb, ?_, ?_, ?_, ?_, ?_⟩
  · simp [lock_session]
  · simp [list_entries, lock_session]
  · simp [import_file, lock_session]
  · simp [export_file, lock_session]
  · simp [delete_entry, lock_session]

/-- Each word the index stream can select is in the fixed word list. -/
theorem recoveryWords_getD_mem : ∀ i : Fin 26, recoveryWords.getD i.val "" ∈ recoveryWords := by
  decide

/-- C9: `generate_recovery_codes` returns exactly four strings; each is
three words drawn from the fixed 26-word NATO-style list joined by `-`
(via the source's `Vec::join`, modelled by `joinSep`); the word list has
26 entries, all entirely lowercase; and `create_vault`'s returned recovery
codes are exactly `generate_recovery_codes`'s output. -/
theorem vault_c9_recovery_codes (r : Nat → Fin 26) :
    (generate_recovery_codes r).length = 4 ∧
    (∀ code ∈ generate_recovery_codes r,
       ∃ w1 ∈ recoveryWords, ∃ w2 ∈ recoveryWords, ∃ w3 ∈ recoveryWords,
         code = joinSep "-" [w1, w2, w3]) ∧
    recoveryWords.length = 26 ∧
    (∀ w ∈ recoveryWords, ∀ ch ∈ w.toList, ch.isLower = true) ∧
    (∀ (lib : Externals) (pe : Bool) (vid : String) (sb : List Nat)
       (ns : String) (pw mn : List Nat) (out : String × List String × List Nat),
       create_vault lib pe vid sb ns pw mn r = .ok out →
       out.2.1 = generate_recovery_codes r) := by
  refine ⟨by simp [generate_recovery_codes], ?_, by decide, by decide, ?_⟩
  · intro code hc
    simp only [generate_recovery_codes, List.mem_map, List.mem_range] at hc
    obtain ⟨i, hi, rfl⟩ := hc
    have h3 : List.range 3 = [0, 1, 2] := rfl
    rw [h3]
    simp only [List.map_cons, List.map_nil]
    exact ⟨_, recoveryWords_getD_mem (r (3 * i + 0)),
           _, recoveryWords_getD_mem (r (3 * i + 1)),
           _, recoveryWords_getD_mem (r (3 * i + 2)), rfl⟩
  · intro lib pe vid sb ns pw mn out h
    unfold create_vault at h
    split at h
    · exact absurd h (by simp)
    · simp only [] at h
      split at h
      · exact absurd h (by simp)
      · split at h
        · exact absurd h (by simp)
        · simp only [Except.ok.injEq] at h
          subst h
          rfl

/-- C9 witness: the per-code decomposition on a concrete generated code,
and the `create_vault` propagation at a concrete successful creation. -/
theorem vault_c9_witness :
    (∃ w1 ∈ recoveryWords, ∃ w2 ∈ recoveryWords, ∃ w3 ∈ recoveryWords,
       "alpha-alpha-alpha" = joinSep "-" [w1, w2, w3]) ∧
    ("v", generate_recovery_codes wRng, BOUNDARY ++ wNonce).2.1
      = generate_recovery_codes wRng :=
  ⟨(vault_c9_recovery_codes wRng).2.1 "alpha-alpha-alpha" (by decide),
   (vault_c9_recovery_codes wRng).2.2.2.2 mocks false "v" [] "t" [1] wNonce
     ("v", generate_recovery_codes wRng, BOUNDARY ++ wNonce) rfl⟩

/-- C4 (counterexample to the claim as stated): on a concrete container,
`save_manifest` performs exactly an open-for-read of the vault path, a
truncating create of the vault path *itself*, and two direct writes to it
— its trace contains no write to any temporary path and no rename at all,
contradicting "first writes to a temporary file and then atomically
renames it over the vault path". -/
theorem vault_c4_counterexample :
    save_manifest mocks wSession ([72] ++ BOUNDARY) wNonce = .ok (wTrace, wNewC) ∧
    wTrace.all (fun op => !op.isRename) = true ∧
    FsOp.createTruncate wSession.vault_path ∈ wTrace :=
  ⟨rfl, by decide, by decide⟩

/-- C4 (amended): a successful `save_manifest` rewrites the container in
place — the trace is exactly open-for-read, truncating create of the vault
path, then direct writes of the header-plus-boundary prefix and of the
freshly sealed manifest, with no rename anywhere; so an I/O failure during
the write can leave the container partially written. -/
theorem vault_c4_saves_in_place (lib : Externals) (s : VaultSession)
    (contents nonce : List Nat) (tr : List FsOp) (newC : List Nat)
    (h : save_manifest lib s contents nonce = .ok (tr, newC)) :
    (∃ hb em,
       tr = [FsOp.openRead s.vault_path, FsOp.createTruncate s.vault_path,
             FsOp.writeAll s.vault_path hb, FsOp.writeAll s.vault_path em] ∧
       newC = hb ++ em) ∧
    tr.all (fun op => !op.isRename) = true := by
  unfold save_manifest at h
  split at h
  · exact absurd h (by simp)
  · simp only [] at h
    split at h
    · exact absurd h (by simp)
    · simp only [Except.ok.injEq, Prod.mk.injEq] at h
      obtain ⟨htr, hnc⟩ := h
      subst htr
      subst hnc
      exact ⟨⟨_, _, rfl, rfl⟩, by simp [FsOp.isRename]⟩

/-- C4 witness: the amended theorem applied at the concrete container. -/
theorem vault_c4_witness :
    (∃ hb em,
       wTrace = [FsOp.openRead wSession.vault_path,
                 FsOp.createTruncate wSession.vault_path,
                 FsOp.writeAll wSession.vault_path hb,
                 FsOp.writeAll wSession.vault_path em] ∧
       wNewC = hb ++ em) ∧
    wTrace.all (fun op => !op.isRename) = true :=
  vault_c4_saves_in_place mocks wSession ([72] ++ BOUNDARY) wNonce wTrace wNewC (by rfl)

/-- C6: a successful `save_manifest` leaves the byte region from the start
of the file through the end of the boundary sentinel identical to what it
was before the save; the new contents are exactly that prefix followed by
the fresh sealed manifest, so only bytes after the boundary change. -/
theorem vault_c6_header_preserved (lib : Externals) (s : VaultSession)
    (contents nonce : List Nat) (tr : List FsOp) (newC : List Nat)
    (h : save_manifest lib s contents nonce = .ok (tr, newC)) :
    ∃ pos, findBoundary contents = some pos ∧
      newC.take (pos + BOUNDARY.length) = contents.take (pos + BOUNDARY.length) ∧
      ∃ em, newC = contents.take (pos + BOUNDARY.length) ++ em := by
  unfold save_manifest at h
  split at h
  case h_1 => exact absurd h (by simp)
  case h_2 pos hpos =>
    simp only [] at h
    split at h
    · exact absurd h (by simp)
    · simp only [Except.ok.injEq, Prod.mk.injEq] at h
      obtain ⟨htr, hnc⟩ := h
      obtain ⟨pre, post, hsplit, hlen⟩ := findBoundaryFrom_some contents 0 pos hpos
      have hpre : pre.length = pos := by omega
      have htake : contents.take (pos + BOUNDARY.length) = pre ++ BOUNDARY := by
        rw [hsplit, ← hpre, take_at_boundary]
      refine ⟨pos, hpos, ?_, ?_⟩
      · rw [← hnc, htake, ← hpre, ← List.length_append pre BOUNDARY]
        exact List.take_left _ _
      · exact ⟨_, hnc.symm⟩

/-- C6 witness: the theorem applied at the concrete container. -/
theorem vault_c6_witness :
    ∃ pos, findBoundary ([72] ++ BOUNDARY) = some pos ∧
      wNewC.take (pos + BOUNDARY.length)
        = ([72] ++ BOUNDARY).take (pos + BOUNDARY.length) ∧
      ∃ em, wNewC = ([72] ++ BOUNDARY).take (pos + BOUNDARY.length) ++ em :=
  vault_c6_header_preserved mocks wSession ([72] ++ BOUNDARY) wNonce wTrace wNewC (by rfl)

/-- C7: `open_vault` (a total function — it cannot panic) returns a format
error and no session whenever the container bytes lack the boundary
sentinel, or the header region does not parse as the header record —
whether because it is not valid UTF-8 or because the decoded string is not
header JSON — or fewer than 12 bytes follow the boundary. -/
theorem vault_c7_open_rejects_malformed (lib : Externals) (path : String)
    (contents pw : List Nat) (now : Nat)
    (h : findBoundary contents = none ∨
         (∃ pos, findBoundary contents = some pos ∧
            (lib.decodeUtf8 (contents.take pos) = none ∨
             ∃ hs, lib.decodeUtf8 (contents.take pos) = some hs ∧
               lib.parseHeader hs = none)) ∨
         (∃ pos, findBoundary contents = some pos ∧
            (contents.drop (pos + BOUNDARY.length)).length < 12)) :
    ∃ e, open_vault lib path contents pw now = .error e := by
  rcases h with h1 | ⟨pos, h1, h2 | ⟨hs, h2, h3⟩⟩ | ⟨pos, h1, hlen⟩
  · exact ⟨"Invalid vault format: boundary not found", by simp [open_vault, h1]⟩
  · exact ⟨"Invalid header encoding", by simp [open_vault, h1, h2]⟩
  · exact ⟨"Failed to parse header", by simp [open_vault, h1, h2, h3]⟩
  · have hlen' : contents.length - (pos + BOUNDARY.length) < 12 := by
      simpa using hlen
    cases hdec : lib.decodeUtf8 (contents.take pos) with
    | none => exact ⟨"Invalid header encoding", by simp [open_vault, h1, hdec]⟩
    | some hstr =>
      cases hph : lib.parseHeader hstr with
      | none => exact ⟨"Failed to parse header", by simp [open_vault, h1, hdec, hph]⟩
      | some header =>
        cases hdk : derive_key lib pw header.salt header.argon2_params with
        | error e => exact ⟨e, by simp [open_vault, h1, hdec, hph, hdk]⟩
        | ok key =>
          exact ⟨"Encrypted data too short",
            by simp [open_vault, decrypt_json, h1, hdec, hph, hdk, hlen']⟩

/-- C7 witness: the theorem at four concrete malformed containers — no
boundary, a header region that is not valid UTF-8, a decoded header that
fails to parse as JSON, and fewer than 12 bytes after the boundary. -/
theorem vault_c7_witness :
    (∃ e, open_vault mocks "p" [1, 2] [] 0 = .error e) ∧
    (∃ e, open_vault utf8Rejecting "p" ([72] ++ BOUNDARY ++ List.replicate 12 0) [] 0 = .error e) ∧
    (∃ e, open_vault mocks "p" ([72] ++ BOUNDARY ++ List.replicate 12 0) [] 0 = .error e) ∧
    (∃ e, open_vault mocks "p" BOUNDARY [] 0 = .error e) :=
  ⟨vault_c7_open_rejects_malformed mocks "p" [1, 2] [] 0 (Or.inl (by decide)),
   vault_c7_open_rejects_malformed utf8Rejecting "p" ([72] ++ BOUNDARY ++ List.replicate 12 0) [] 0
     (Or.inr (Or.inl ⟨1, by decide, Or.inl rfl⟩)),
   vault_c7_open_rejects_malformed mocks "p" ([72] ++ BOUNDARY ++ List.replicate 12 0) [] 0
     (Or.inr (Or.inl ⟨1, by decide, Or.inr ⟨"", rfl, rfl⟩⟩)),
   vault_c7_open_rejects_malformed mocks "p" BOUNDARY [] 0
     (Or.inr (Or.inr ⟨0, by decide, by decide⟩))⟩

/-- Inversion of a successful `save_manifest`: the old contents contain the
boundary, the key was 32 bytes, and the new contents are the preserved
prefix (through the sentinel) followed by the fresh sealed manifest. -/
theorem save_manifest_ok_inv (lib : Externals) (s : VaultSession)
    (contents nonce : List Nat) (tr : List FsOp) (newC : List Nat)
    (h : save_manifest lib s contents nonce = .ok (tr, newC)) :
    ∃ pre post em, contents = pre ++ BOUNDARY ++ post ∧
      findBoundary contents = some pre.length ∧
      s.cipher_key.length = 32 ∧
      newC = pre ++ BOUNDARY ++ em := by
  unfold save_manifest at h
  split at h
  · exact absurd h (by simp)
  · rename_i pos hpos
    simp only [] at h
    split at h
    · exact absurd h (by simp)
    · rename_i em henc
      unfold encrypt_data at henc
      split at henc
      · simp only [Except.ok.injEq] at henc
        rename_i hkey
        simp only [Except.ok.injEq, Prod.mk.injEq] at h
        obtain ⟨htr, hnc⟩ := h
        obtain ⟨pre, post, hsplit, hlen⟩ := findBoundaryFrom_some contents 0 pos hpos
        have hpre : pre.length = pos := by omega
        refine ⟨pre, post, em, hsplit, by rw [hpre]; exact hpos, hkey, ?_⟩
        rw [← hnc, hsplit, ← hpre, take_at_boundary, List.append_assoc]
      · exact absurd henc (by simp)

/-- Inversion of a successful `import_file`: what the returned session,
container bytes and id are in terms of the inputs. -/
theorem import_file_ok_inv (lib : Externals) (s : VaultSession)
    (rr : Except String (List Nat)) (nm pth : String) (mext : Option String)
    (tags : List String) (eid : String) (nb : List Nat) (ts : String)
    (now : Nat) (vf mn : List Nat) (s1 : VaultSession) (f1 : List Nat)
    (rid : String)
    (h : import_file lib s rr nm pth mext tags eid nb ts now vf mn
           = (s1, f1, Except.ok rid)) :
    s.locked = false ∧ rid = eid ∧ s.cipher_key.length = 32 ∧
    s1.locked = false ∧ s1.cipher_key = s.cipher_key ∧
    (∃ data, rr = Except.ok data ∧
       mapGet eid s1.manifest.entries = some
         { id := eid, filename := nm, original_path := pth,
           file_size := data.length, mime_type := guess_mime_type mext,
           imported_at := ts, nonce := hexEncode nb, tags := tags,
           encrypted_data :=
             String.mk (b64encode (nb ++ lib.enc s.cipher_key nb data)) }) ∧
    s1.manifest.access_log
      = s.manifest.access_log ++ [⟨ts, "import", some eid, "success"⟩] ∧
    s1.last_accessed = now ∧
    (∃ pre em, f1 = pre ++ BOUNDARY ++ em) := by
  unfold import_file at h
  split at h
  · exact absurd h (by simp)
  · rename_i hlocked
    split at h
    · exact absurd h (by simp)
    · rename_i xv data
      simp only [] at h
      split at h
      · exact absurd h (by simp)
      · rename_i hsize
        split at h
        · exact absurd h (by simp)
        · rename_i ewn hewn
          split at h
          · exact absurd h (by simp)
          · rename_i res newFile hsave
            unfold encrypt_bytes_with_nonce at hewn
            split at hewn
            · simp only [Except.ok.injEq] at hewn
              rename_i hkey
              obtain ⟨pre, post, em, hvf, hfb, _, hnewf⟩ :=
                save_manifest_ok_inv lib _ vf mn res newFile hsave
              simp only [Prod.mk.injEq, Except.ok.injEq] at h
              obtain ⟨hs1, hf1, hrid⟩ := h
              subst hs1; subst hf1; subst hrid
              refine ⟨by simpa using hlocked, rfl, hkey, by simpa using hlocked, rfl,
                ⟨data, rfl, ?_⟩, by simp, by simp, ⟨pre, em, hnewf⟩⟩
              simp only []
              rw [← hewn]
              exact mapGet_mapInsert_self eid _ s.manifest.entries
            · exact absurd hewn (by simp)

/-- Inversion of a successful `export_file`: the entry map and every other
session field except the clock are untouched; exactly one `export/success`
audit record is appended. -/
theorem export_file_ok_inv (lib : Externals) (s : VaultSession) (eid : String)
    (ow : Except String Unit) (ts : String) (now : Nat) (vf mn : List Nat)
    (s1 : VaultSession) (f1 : List Nat) (out : List Nat)
    (h : export_file lib s eid ow ts now vf mn = (s1, f1, Except.ok out)) :
    s1.manifest.entries = s.manifest.entries ∧
    s1.vault_id = s.vault_id ∧ s1.vault_path = s.vault_path ∧
    s1.cipher_key = s.cipher_key ∧ s1.locked = s.locked ∧
    s1.manifest.last_accessed = s.manifest.last_accessed ∧
    s1.last_accessed = now ∧
    s1.manifest.access_log
      = s.manifest.access_log ++ [⟨ts, "export", some eid, "success"⟩] := by
  unfold export_file at h
  split at h
  · exact absurd h (by simp)
  · split at h
    · exact absurd h (by simp)
    · rename_i entry hentry
      split at h
      · exact absurd h (by simp)
      · rename_i hne
        split at h
        · exact absurd h (by simp)
        · rename_i ed hed
          split at h
          · exact absurd h (by simp)
          · rename_i fd hfd
            split at h
            · exact absurd h (by simp)
            · simp only [] at h
              split at h
              · exact absurd h (by simp)
              · rename_i res newFile hsave
                simp only [Prod.mk.injEq, Except.ok.injEq] at h
                obtain ⟨hs1, hf1, hout⟩ := h
                subst hs1; subst hf1; subst hout
                refine ⟨by simp, by simp, by simp, by simp, by simp, by simp, by simp, by simp⟩

/-- Inversion of a successful `delete_entry`: exactly one `delete/success`
audit record is appended. -/
theorem delete_entry_ok_inv (lib : Externals) (s : VaultSession) (eid : String)
    (ts : String) (now : Nat) (vf mn : List Nat)
    (s1 : VaultSession) (f1 : List Nat)
    (h : delete_entry lib s eid ts now vf mn = (s1, f1, Except.ok ())) :
    s1.manifest.access_log
      = s.manifest.access_log ++ [⟨ts, "delete", some eid, "success"⟩] ∧
    s1.last_accessed = now := by
  unfold delete_entry at h
  split at h
  · exact absurd h (by simp)
  · split at h
    · exact absurd h (by simp)
    · rename_i entries' hrem
      simp only [] at h
      split at h
      · exact absurd h (by simp)
      · rename_i res newFile hsave
        simp only [Prod.mk.injEq, Except.ok.injEq] at h
        obtain ⟨hs1, hf1, _⟩ := h
        subst hs1; subst hf1
        exact ⟨by simp, by simp⟩

/-- C8: every successful mutating operation — `import_file`, `export_file`,
`delete_entry` — appends exactly one record to the manifest's `access_log`
(the new log is the old one plus a single record), and the appended
record's action names the operation with status `success`. -/
theorem vault_c8_audit_append :
    (∀ (lib : Externals) (s : VaultSession) (rr : Except String (List Nat))
       (nm pth : String) (mext : Option String) (tags : List String)
       (eid : String) (nb : List Nat) (ts : String) (now : Nat)
       (vf mn : List Nat) (s1 : VaultSession) (f1 : List Nat) (rid : String),
       import_file lib s rr nm pth mext tags eid nb ts now vf mn
         = (s1, f1, Except.ok rid) →
       s1.manifest.access_log
         = s.manifest.access_log ++ [⟨ts, "import", some eid, "success"⟩]) ∧
    (∀ (lib : Externals) (s : VaultSession) (eid : String)
       (ow : Except String Unit) (ts : String) (now : Nat) (vf mn : List Nat)
       (s1 : VaultSession) (f1 out : List Nat),
       export_file lib s eid ow ts now vf mn = (s1, f1, Except.ok out) →
       s1.manifest.access_log
         = s.manifest.access_log ++ [⟨ts, "export", some eid, "success"⟩]) ∧
    (∀ (lib : Externals) (s : VaultSession) (eid : String) (ts : String)
       (now : Nat) (vf mn : List Nat) (s1 : VaultSession) (f1 : List Nat),
       delete_entry lib s eid ts now vf mn = (s1, f1, Except.ok ()) →
       s1.manifest.access_log
         = s.manifest.access_log ++ [⟨ts, "delete", some eid, "success"⟩]) :=
  ⟨fun lib s rr nm pth mext tags eid nb ts now vf mn s1 f1 rid h =>
     (import_file_ok_inv lib s rr nm pth mext tags eid nb ts now vf mn s1 f1 rid h).2.2.2.2.2.2.1,
   fun lib s eid ow ts now vf mn s1 f1 out h =>
     (export_file_ok_inv lib s eid ow ts now vf mn s1 f1 out h).2.2.2.2.2.2.2,
   fun lib s eid ts now vf mn s1 f1 h =>
     (delete_entry_ok_inv lib s eid ts now vf mn s1 f1 h).1⟩

/-- C8 witness: the three parts of the theorem at a concrete successful
call of each of the import, export and delete operations. -/
theorem vault_c8_witness :
    wImportRes.1.manifest.access_log
      = wSession.manifest.access_log ++ [⟨"t1", "import", some "e1", "success"⟩] ∧
    wExportRes.1.manifest.access_log
      = wSessionWithEntry.manifest.access_log ++ [⟨"t2", "export", some "e1", "success"⟩] ∧
    wDeleteRes.1.manifest.access_log
      = wSessionWithEntry.manifest.access_log ++ [⟨"t3", "delete", some "e1", "success"⟩] :=
  ⟨vault_c8_audit_append.1 mocks wSession (Except.ok [1, 2, 3]) "f" "/f" none []
     "e1" wNonce "t1" 1 BOUNDARY wNonce wImportRes.1 wImportRes.2.1 "e1" (by rfl),
   vault_c8_audit_append.2.1 mocks wSessionWithEntry "e1" (Except.ok ()) "t2" 2
     BOUNDARY wNonce wExportRes.1 wExportRes.2.1 [] (by rfl),
   vault_c8_audit_append.2.2 mocks wSessionWithEntry "e1" "t3" 3 BOUNDARY wNonce
     wDeleteRes.1 wDeleteRes.2.1 (by rfl)⟩

/-- C10: a successful `export_file` never changes the entry map — entries
(keys and records, including `encrypted_data`) are identical before and
after — nor the identity, path, key, lock state or the manifest clock
string; only the access log (one appended record) and the session's
`last_accessed` instant change. -/
theorem vault_c10_export_frame (lib : Externals) (s : VaultSession) (eid : String)
    (ow : Except String Unit) (ts : String) (now : Nat) (vf mn : List Nat)
    (s1 : VaultSession) (f1 out : List Nat)
    (h : export_file lib s eid ow ts now vf mn = (s1, f1, Except.ok out)) :
    s1.manifest.entries = s.manifest.entries ∧
    s1.vault_id = s.vault_id ∧ s1.vault_path = s.vault_path ∧
    s1.cipher_key = s.cipher_key ∧ s1.locked = s.locked ∧
    s1.manifest.last_accessed = s.manifest.last_accessed ∧
    s1.last_accessed = now ∧
    s1.manifest.access_log
      = s.manifest.access_log ++ [⟨ts, "export", some eid, "success"⟩] :=
  export_file_ok_inv lib s eid ow ts now vf mn s1 f1 out h

/-- C10 witness: the theorem at a concrete successful export. -/
theorem vault_c10_witness :
    wExportRes.1.manifest.entries = wSessionWithEntry.manifest.entries ∧
    wExportRes.1.vault_id = wSessionWithEntry.vault_id ∧
    wExportRes.1.vault_path = wSessionWithEntry.vault_path ∧
    wExportRes.1.cipher_key = wSessionWithEntry.cipher_key ∧
    wExportRes.1.locked = wSessionWithEntry.locked ∧
    wExportRes.1.manifest.last_accessed = wSessionWithEntry.manifest.last_accessed ∧
    wExportRes.1.last_accessed = 2 ∧
    wExportRes.1.manifest.access_log
      = wSessionWithEntry.manifest.access_log ++ [⟨"t2", "export", some "e1", "success"⟩] :=
  vault_c10_export_frame mocks wSessionWithEntry "e1" (Except.ok ()) "t2" 2
    BOUNDARY wNonce wExportRes.1 wExportRes.2.1 [] (by rfl)

/-- C2: importing any byte sequence into an unlocked session and then
exporting the returned entry id under the same session key writes exactly
the original bytes (the `Except.ok` payload of `export_file` is the
content written to the destination).  Hypotheses beyond the import's
success: the payload nonce is 12 bytes of the RNG (bytes below 256), the
external cipher produces bytes and round-trips on this payload — the
documented contract of ChaCha20-Poly1305. -/
theorem vault_c2_import_export_roundtrip
    (lib : Externals) (s : VaultSession) (data : List Nat)
    (nm pth : String) (mext : Option String) (tags : List String)
    (eid : String) (nb : List Nat) (ts1 : String) (n1 : Nat)
    (vf mn1 : List Nat) (s1 : VaultSession) (f1 : List Nat) (rid : String)
    (ts2 : String) (n2 : Nat) (mn2 : List Nat)
    (hNlen : nb.length = 12)
    (hNB : ∀ b ∈ nb, b < 256)
    (hEncB : ∀ b ∈ lib.enc s.cipher_key nb data, b < 256)
    (hRT : lib.dec s.cipher_key nb (lib.enc s.cipher_key nb data) = some data)
    (hImp : import_file lib s (Except.ok data) nm pth mext tags eid nb ts1 n1 vf mn1
              = (s1, f1, Except.ok rid)) :
    ∃ s2 f2, export_file lib s1 rid (Except.ok ()) ts2 n2 f1 mn2
               = (s2, f2, Except.ok data) := by
  obtain ⟨hL, hrid, hK, hL1, hCK, ⟨d0, hd0, hget⟩, hlog, hlast, pre, em, hf1⟩ :=
    import_file_ok_inv lib s (Except.ok data) nm pth mext tags eid nb ts1 n1
      vf mn1 s1 f1 rid hImp
  obtain rfl : d0 = data := ((Except.ok.injEq _ _).mp hd0).symm
  subst hrid
  subst hf1
  have hblob : ∀ b ∈ nb ++ lib.enc s.cipher_key nb d0, b < 256 := by
    intro b hb
    rcases List.mem_append.mp hb with hb | hb
    · exact hNB b hb
    · exact hEncB b hb
  have hrt64 : b64decode (b64encode (nb ++ lib.enc s.cipher_key nb d0))
      = some (nb ++ lib.enc s.cipher_key nb d0) := b64_roundtrip _ hblob
  have hsne : ¬ (String.mk (b64encode (nb ++ lib.enc s.cipher_key nb d0)) = "") := by
    intro hc
    have hl : b64encode (nb ++ lib.enc s.cipher_key nb d0) = [] :=
      congrArg String.toList hc
    have : nb ++ lib.enc s.cipher_key nb d0 = [] := (b64encode_eq_nil _).mp hl
    have := congrArg List.length this
    simp [hNlen] at this
  have htl : (String.mk (b64encode (nb ++ lib.enc s.cipher_key nb d0))).toList
      = b64encode (nb ++ lib.enc s.cipher_key nb d0) := rfl
  have hnlt : ¬ (nb ++ lib.enc s.cipher_key nb d0).length < 12 := by
    simp [List.length_append, hNlen]
  have htake : (nb ++ lib.enc s.cipher_key nb d0).take 12 = nb := by
    rw [← hNlen]; exact List.take_left _ _
  have hdrop : (nb ++ lib.enc s.cipher_key nb d0).drop 12
      = lib.enc s.cipher_key nb d0 := by
    rw [← hNlen]; exact List.drop_left _ _
  obtain ⟨p2, hp2⟩ := findBoundaryFrom_isSome pre em 0
  have hfb2 : findBoundary (pre ++ BOUNDARY ++ em) = some p2 := hp2
  simp only [export_file, hL1, Bool.false_eq_true, reduceIte, hget, hsne, htl,
    hrt64, decrypt_bytes, hCK, hnlt, htake, hdrop, hK, hRT, save_manifest,
    hfb2, encrypt_data]
  exact ⟨_, _, rfl⟩

/-- C2 witness: the theorem at a concrete import of `[1, 2, 3]` followed by
an export of the created entry. -/
theorem vault_c2_witness :
    ∃ s2 f2, export_file mocks wImportRes.1 "e1" (Except.ok ()) "t2" 2
               wImportRes.2.1 wNonce = (s2, f2, Except.ok [1, 2, 3]) :=
  vault_c2_import_export_roundtrip mocks wSession [1, 2, 3] "f" "/f" none []
    "e1" wNonce "t1" 1 BOUNDARY wNonce wImportRes.1 wImportRes.2.1 "e1" "t2" 2
    wNonce (by decide) (by decide) (by decide) (by rfl) (by rfl)

/-- C5 witness: the zeroization and idempotence parts of the lock theorem
evaluated on a concrete session. -/
theorem vault_c5_witness :
    (0 : Nat) = 0 ∧
    lock_session (lock_session wSession) = lock_session wSession :=
  ⟨(vault_c5_lock_zeroizes_and_rejects wSession mocks (Except.ok []) "" "" none
      [] "" [] "" 0 [] [] (Except.ok ())).1 0 (by decide),
   (vault_c5_lock_zeroizes_and_rejects wSession mocks (Except.ok []) "" "" none
      [] "" [] "" 0 [] [] (Except.ok ())).2.1⟩
